import Mathlib

/-!
Verification development for the cooperative task-scheduling subsystem of
bonedaddy/vulkan (src/common/task.c), shallowly embedded in Lean 4.

Modelling conventions:
- Wall-clock times and delays are modelled as integers (the C source uses
  doubles; only subtraction and order comparison occur, which the integer
  model reproduces).  Every call to get_current_time() inside one operation
  is modelled as one explicit time parameter `now` passed to that operation.
- Heap-allocated task_t and task_scheduler_t objects are modelled as cells
  in a growable list; a C pointer is the cell index (Nat).  free() is
  modelled by marking the cell `freed := true`; the field writes that
  free_task performs just before free() (id := -1 and so on) remain visible
  in the cell, which models the observable sentinel invalidation the source
  performs on purpose.
- A task callable is abstracted as a pure stream of results
  `func : Nat -> TaskResult` indexed by the invocation count; the dispatcher
  passes the task handle and the captured va_list in C, but only the
  returned task_result_t influences scheduling state.
- The per-task pthread mutex (the guard) is acquired and released around the
  callable in the source; in this sequential embedding it has no observable
  effect and is not represented.
- Ghost instrumentation (never read by the embedded code): `log` records
  every callable invocation, `calls` counts invocations of one task,
  `createdTaskIds` and `createdSchedulerIds` record the ids handed out by
  add_task and add_scheduler in order, `nextFrame` numbers add_task call
  frames so that the lifetime of the captured va_list can be stated.
-/

namespace Vulkan

/-- The task_result_t enumeration of task.h: CONT, WAIT, DONE; `unknown`
stands for any unrecognized value, which the dispatcher switch sends to the
default branch together with DONE. -/
inductive TaskResult where
  | cont
  | wait
  | done
  | unknown
deriving DecidableEq, Repr

/-- Ghost record of one callable invocation performed by the dispatcher:
the id the task had at invocation time, the dispatcher time, and the
returned result. -/
structure Event where
  tid : Int
  time : Int
  result : TaskResult
deriving DecidableEq, Repr

/-- Where the `args` field of a task points.  The source stores
`task->args = &args` where `args` is a va_list local to the add_task call
frame: `frameRef f blob` models a pointer into the (transient) stack frame
of the f-th add_task call, holding the variadic values `blob`; that frame is
dead as soon as add_task returns.  `ownedCopy blob` is the spec-side
alternative (argument values copied into task-owned storage); the embedded
code never constructs it, it exists only so the ownership property of the
spec can be stated and compared against the code. -/
inductive ArgsPtr where
  | frameRef (frame : Nat) (blob : List Int)
  | ownedCopy (blob : List Int)
deriving DecidableEq, Repr

/-- True when the argument storage is owned by the task itself. -/
def ArgsPtr.isOwnedCopy : ArgsPtr → Bool
  | .frameRef _ _ => false
  | .ownedCopy _ => true

/-- The task_t structure (task.h is not in the sources; fields are exactly
those task.c reads and writes, matching spec section 3): id, callable,
args pointer, delayable flag, delay, timestamp.  `calls` is ghost
instrumentation counting invocations.  The pthread mutex field has no
sequential content and is omitted. -/
structure Task where
  id : Int
  func : Nat → TaskResult
  args : ArgsPtr
  delayable : Bool
  delay : Int
  timestamp : Int
  calls : Nat

/-- One heap cell holding a task_t allocation; `freed` records whether
free() has been called on it. -/
structure TaskCell where
  task : Task
  freed : Bool

/-- One heap cell holding a task_scheduler_t allocation (id field plus
thread bookkeeping, which has no sequential content). -/
structure SchedCell where
  id : Int
  freed : Bool

/-- Reading through an invalid pointer yields this cell: a freed cell with
sentinel id, never constructed by the embedded operations. -/
def dummyCell : TaskCell :=
  { task := { id := -1, func := fun _ => TaskResult.unknown,
              args := ArgsPtr.frameRef 0 [], delayable := false,
              delay := 0, timestamp := 0, calls := 0 },
    freed := true }

/-- Dummy scheduler cell for invalid pointers. -/
def dummySchedCell : SchedCell := { id := -1, freed := true }

/-- The process-wide state of the task manager: the static variables of
task.c (taskmgr_next_task_id, taskmgr_next_scheduler_id, taskmgr_task_queue,
taskmgr_scheduler_queue, taskmgr_running), the two heaps of allocated
objects, and ghost instrumentation. -/
structure TaskMgr where
  nextTaskId : Int
  nextSchedulerId : Int
  taskQueue : List Nat
  schedulerQueue : List Nat
  running : Bool
  heap : List TaskCell
  schedHeap : List SchedCell
  log : List Event
  createdTaskIds : List Int
  createdSchedulerIds : List Int
  nextFrame : Nat

/-- The state at process start: the id counters are -1, the queues empty,
the manager not running. -/
def initState : TaskMgr :=
  { nextTaskId := -1, nextSchedulerId := -1, taskQueue := [],
    schedulerQueue := [], running := false, heap := [], schedHeap := [],
    log := [], createdTaskIds := [], createdSchedulerIds := [],
    nextFrame := 0 }

/-- Dereference a task pointer. -/
def cellAt (s : TaskMgr) (a : Nat) : TaskCell := s.heap.getD a dummyCell

/-- Dereference a scheduler pointer. -/
def schedCellAt (s : TaskMgr) (a : Nat) : SchedCell :=
  s.schedHeap.getD a dummySchedCell

/-! Queue operations.  queue.c / queue.h are not among the sources; the
contract is spec section 4.1: push to front or back, pop from front, indexed
get, identity-based index-of and remove, emptiness check.  The queue holds
pointers, modelled as a list of cell indices. -/

/-- Modelled from the spec: queue_init allocates an empty queue
(section 4.1). -/
def queue_init : List Nat := []

/-- Modelled from the spec: is_empty (section 4.1). -/
def queue_get_empty (q : List Nat) : Bool := q.isEmpty

/-- Modelled from the spec: pop_front returns the front element and the
remaining queue, or nothing when empty (section 4.1). -/
def queue_pop_left (q : List Nat) : Option (Nat × List Nat) :=
  match q with
  | [] => none
  | x :: xs => some (x, xs)

/-- Modelled from the spec: push_back (section 4.1). -/
def queue_push_right (q : List Nat) (x : Nat) : List Nat := q ++ [x]

/-- Modelled from the spec: index_of by identity, -1 when not found
(section 4.1). -/
def queue_get_index (q : List Nat) (x : Nat) : Int :=
  match q.findIdx? (fun y => y == x) with
  | some i => (i : Int)
  | none => -1

/-- Modelled from the spec: remove by identity, reporting not-found
(section 4.1); on success the first occurrence is removed. -/
def queue_remove_object (q : List Nat) (x : Nat) : Option (List Nat) :=
  if x ∈ q then some (q.erase x) else none

/-- taskmgr_init: fails (returns 1) when already running, otherwise
allocates fresh task and scheduler queues and returns 0.  The id counters
are not touched. -/
def taskmgr_init (s : TaskMgr) : Int × TaskMgr :=
  if s.running then (1, s)
  else (0, { s with taskQueue := queue_init, schedulerQueue := queue_init })

/-- free_task: va_end on the captured list, sentinel writes (id := -1,
delayable := 0, delay := 0, timestamp := 0), mutex destroy, free().
Returns 0. -/
def free_task (a : Nat) (s : TaskMgr) : Int × TaskMgr :=
  let c : TaskCell :=
    { task := { (cellAt s a).task with
        id := -1, delayable := false, delay := 0, timestamp := 0 },
      freed := true }
  (0, { s with heap := s.heap.set a c })

/-- taskmgr_tick: one unit of scheduling work.  Empty queue: return 0 with
no change.  Otherwise pop the front task; a delayable task whose delay has
not yet elapsed is pushed to the back unchanged; otherwise the callable is
invoked (under the task mutex in the source) and the result dispatched:
CONT clears delayable and requeues, WAIT sets delayable, resets the
timestamp to now and requeues, DONE or any other value frees the task. -/
def taskmgr_tick (now : Int) (s : TaskMgr) : Int × TaskMgr :=
  if queue_get_empty s.taskQueue then (0, s)
  else
    match queue_pop_left s.taskQueue with
    | none => (1, s)
    | some (a, rest) =>
      let t := (cellAt s a).task
      if t.delayable = true ∧ now - t.timestamp < t.delay then
        (0, { s with taskQueue := queue_push_right rest a })
      else
        let result := t.func t.calls
        let c1 : TaskCell :=
          { (cellAt s a) with task := { t with calls := t.calls + 1 } }
        let s1 : TaskMgr :=
          { s with
            taskQueue := rest,
            heap := s.heap.set a c1,
            log := s.log ++ [{ tid := t.id, time := now, result := result }] }
        match result with
        | .cont =>
          let c2 : TaskCell :=
            { c1 with task := { c1.task with delayable := false } }
          (0, { s1 with
                heap := s1.heap.set a c2,
                taskQueue := queue_push_right rest a })
        | .wait =>
          let c2 : TaskCell :=
            { c1 with task :=
               { c1.task with delayable := true, timestamp := now } }
          (0, { s1 with
                heap := s1.heap.set a c2,
                taskQueue := queue_push_right rest a })
        | .done => (0, (free_task a s1).2)
        | .unknown => (0, (free_task a s1).2)

/-- The while loop body of taskmgr_run, fuel-indexed because the loop only
ends when another thread clears the running flag.  `clock` supplies the
dispatcher time of each iteration and the returned Nat counts the ticks
executed. -/
def taskmgr_run_aux : Nat → (Nat → Int) → Nat → TaskMgr → Int × TaskMgr × Nat
  | 0, _, k, s => (0, s, k)
  | fuel + 1, clock, k, s =>
    if s.running then
      let r := taskmgr_tick (clock k) s
      if r.1 = 0 then taskmgr_run_aux fuel clock (k + 1) r.2
      else (1, r.2, k + 1)
    else (0, s, k)

/-- taskmgr_run: returns 1 at once when the manager is already running,
otherwise sets the running flag and loops taskmgr_tick (yielding between
iterations).  The third component counts executed ticks. -/
def taskmgr_run (fuel : Nat) (clock : Nat → Int) (s : TaskMgr) :
    Int × TaskMgr × Nat :=
  if s.running then (1, s, 0)
  else taskmgr_run_aux fuel clock 0 { s with running := true }

/-- taskmgr_scheduler_run: the thread entry point of a Scheduler; it calls
taskmgr_run and discards its return code. -/
def taskmgr_scheduler_run (fuel : Nat) (clock : Nat → Int) (s : TaskMgr) :
    TaskMgr × Nat :=
  ((taskmgr_run fuel clock s).2.1, (taskmgr_run fuel clock s).2.2)

/-- taskmgr_shutdown: fails (returns 1) when not running, otherwise clears
the running flag and frees both queues. -/
def taskmgr_shutdown (s : TaskMgr) : Int × TaskMgr :=
  if s.running = false then (1, s)
  else (0, { s with running := false, taskQueue := [], schedulerQueue := [] })

/-- has_task: membership of the pointer in the task queue. -/
def has_task (a : Nat) (s : TaskMgr) : Bool :=
  queue_get_index s.taskQueue a != -1

/-- get_task_by_id: linear scan of the task queue, returning the first
task whose id field matches, as a pointer. -/
def get_task_by_id (i : Int) (s : TaskMgr) : Option Nat :=
  s.taskQueue.find? (fun a => (cellAt s a).task.id == i)

/-- has_task_by_id: get_task_by_id found something. -/
def has_task_by_id (i : Int) (s : TaskMgr) : Bool :=
  (get_task_by_id i s).isSome

/-- add_task: increments the task id counter, allocates a task with the new
id, the callable, a pointer to the variadic list in add_task's own call
frame (the source stores `task->args = &args` where args is a local
va_list), delayable := 1, the given delay and timestamp := now, and pushes
it to the back of the task queue.  Returns the pointer. -/
def add_task (f : Nat → TaskResult) (delay : Int) (blob : List Int)
    (now : Int) (s : TaskMgr) : Nat × TaskMgr :=
  let newId := s.nextTaskId + 1
  let a := s.heap.length
  let c : TaskCell :=
    { task :=
        { id := newId, func := f,
          args := ArgsPtr.frameRef s.nextFrame blob,
          delayable := true, delay := delay, timestamp := now,
          calls := 0 },
      freed := false }
  (a, { s with
        nextTaskId := newId,
        heap := s.heap ++ [c],
        taskQueue := queue_push_right s.taskQueue a,
        createdTaskIds := s.createdTaskIds ++ [newId],
        nextFrame := s.nextFrame + 1 })

/-- remove_task: remove the pointer from the queue, reporting 1 when it is
not there; on success free the task and return free_task's result. -/
def remove_task (a : Nat) (s : TaskMgr) : Int × TaskMgr :=
  match queue_remove_object s.taskQueue a with
  | none => (1, s)
  | some q => free_task a { s with taskQueue := q }

/-- remove_task_by_id: look the task up by id, reporting 1 when absent,
otherwise remove_task it. -/
def remove_task_by_id (i : Int) (s : TaskMgr) : Int × TaskMgr :=
  match get_task_by_id i s with
  | none => (1, s)
  | some a => remove_task a s

/-- free_task_by_id: look the task up by id, reporting 1 when absent,
otherwise free_task it (without removing it from the queue). -/
def free_task_by_id (i : Int) (s : TaskMgr) : Int × TaskMgr :=
  match get_task_by_id i s with
  | none => (1, s)
  | some a => free_task a s

/-- has_scheduler: membership of the pointer in the scheduler queue. -/
def has_scheduler (a : Nat) (s : TaskMgr) : Bool :=
  queue_get_index s.schedulerQueue a != -1

/-- get_scheduler_by_id: linear scan of the scheduler queue. -/
def get_scheduler_by_id (i : Int) (s : TaskMgr) : Option Nat :=
  s.schedulerQueue.find? (fun a => (schedCellAt s a).id == i)

/-- has_scheduler_by_id: get_scheduler_by_id found something. -/
def has_scheduler_by_id (i : Int) (s : TaskMgr) : Bool :=
  (get_scheduler_by_id i s).isSome

/-- add_scheduler: increments the scheduler id counter, allocates a
scheduler record with the new id, spawns a thread running
taskmgr_scheduler_run (the spawned behaviour is reasoned about through
taskmgr_run; pthread attribute and thread creation failures are
environment conditions outside this model), and registers the scheduler.
Returns the pointer. -/
def add_scheduler (s : TaskMgr) : Nat × TaskMgr :=
  let newId := s.nextSchedulerId + 1
  let a := s.schedHeap.length
  (a, { s with
        nextSchedulerId := newId,
        schedHeap := s.schedHeap ++ [{ id := newId, freed := false }],
        schedulerQueue := queue_push_right s.schedulerQueue a,
        createdSchedulerIds := s.createdSchedulerIds ++ [newId] })

/-- free_scheduler: sentinel write (id := -1), attribute destroy, free().
Returns 0. -/
def free_scheduler (a : Nat) (s : TaskMgr) : Int × TaskMgr :=
  (0, { s with schedHeap := s.schedHeap.set a ({ id := -1, freed := true }) })

/-- remove_scheduler: remove the pointer from the scheduler queue,
reporting 1 when it is not there; on success free the scheduler. -/
def remove_scheduler (a : Nat) (s : TaskMgr) : Int × TaskMgr :=
  match queue_remove_object s.schedulerQueue a with
  | none => (1, s)
  | some q => free_scheduler a { s with schedulerQueue := q }

/-- remove_scheduler_by_id. -/
def remove_scheduler_by_id (i : Int) (s : TaskMgr) : Int × TaskMgr :=
  match get_scheduler_by_id i s with
  | none => (1, s)
  | some a => remove_scheduler a s

/-- free_scheduler_by_id. -/
def free_scheduler_by_id (i : Int) (s : TaskMgr) : Int × TaskMgr :=
  match get_scheduler_by_id i s with
  | none => (1, s)
  | some a => free_scheduler a s

/-! Trace machinery for temporal and lifetime claims. -/

/-- Run the dispatcher once per listed time, in order. -/
def runTicks : List Int → TaskMgr → TaskMgr
  | [], s => s
  | t :: ts, s => runTicks ts (taskmgr_tick t s).2

/-- The times at which the dispatcher invoked the callable of the task with
id i, in order of occurrence. -/
def invocationTimes (i : Int) (log : List Event) : List Int :=
  (log.filter (fun e => e.tid == i)).map (fun e => e.time)

/-- How often the dispatcher invoked the callable of the task with id i. -/
def invocationCount (i : Int) (log : List Event) : Nat :=
  (log.filter (fun e => e.tid == i)).length

/-- A callable returning WAIT on every invocation. -/
def alwaysWait : Nat → TaskResult := fun _ => TaskResult.wait

/-- A callable returning DONE on every invocation. -/
def alwaysDone : Nat → TaskResult := fun _ => TaskResult.done

/-- One public mutating operation of the task manager API, used to quantify
over whole process histories. -/
inductive Op where
  | opInit
  | opShutdown
  | opTick (now : Int)
  | opRun (fuel : Nat) (clock : Nat → Int)
  | opAddTask (f : Nat → TaskResult) (delay : Int) (blob : List Int) (now : Int)
  | opAddScheduler
  | opRemoveTask (a : Nat)
  | opRemoveTaskById (i : Int)
  | opFreeTask (a : Nat)
  | opFreeTaskById (i : Int)
  | opRemoveScheduler (a : Nat)
  | opRemoveSchedulerById (i : Int)
  | opFreeScheduler (a : Nat)
  | opFreeSchedulerById (i : Int)

/-- Apply one operation, discarding its return value. -/
def applyOp : Op → TaskMgr → TaskMgr
  | .opInit, s => (taskmgr_init s).2
  | .opShutdown, s => (taskmgr_shutdown s).2
  | .opTick now, s => (taskmgr_tick now s).2
  | .opRun fuel clock, s => (taskmgr_run fuel clock s).2.1
  | .opAddTask f delay blob now, s => (add_task f delay blob now s).2
  | .opAddScheduler, s => (add_scheduler s).2
  | .opRemoveTask a, s => (remove_task a s).2
  | .opRemoveTaskById i, s => (remove_task_by_id i s).2
  | .opFreeTask a, s => (free_task a s).2
  | .opFreeTaskById i, s => (free_task_by_id i s).2
  | .opRemoveScheduler a, s => (remove_scheduler a s).2
  | .opRemoveSchedulerById i, s => (remove_scheduler_by_id i s).2
  | .opFreeScheduler a, s => (free_scheduler a s).2
  | .opFreeSchedulerById i, s => (free_scheduler_by_id i s).2

/-- Run a whole history of operations from a given state. -/
def runOps (ops : List Op) (s : TaskMgr) : TaskMgr :=
  ops.foldl (fun s op => applyOp op s) s

/-- Every freed task cell carries the sentinel id -1 (stated over a raw
cell list). -/
def SentinelTasks (l : List TaskCell) : Prop :=
  ∀ a : Nat, (l.getD a dummyCell).freed = true →
    (l.getD a dummyCell).task.id = -1

/-- Every freed scheduler cell carries the sentinel id -1. -/
def SentinelScheds (l : List SchedCell) : Prop :=
  ∀ a : Nat, (l.getD a dummySchedCell).freed = true →
    (l.getD a dummySchedCell).id = -1

/-- The id-uniqueness invariant of the manager: the ids handed out so far
are strictly increasing in order of creation and bounded by the counters,
and destroyed objects carry the sentinel id. -/
def IdInv (s : TaskMgr) : Prop :=
  List.Pairwise (· < ·) s.createdTaskIds ∧
  (∀ x ∈ s.createdTaskIds, x ≤ s.nextTaskId) ∧
  List.Pairwise (· < ·) s.createdSchedulerIds ∧
  (∀ x ∈ s.createdSchedulerIds, x ≤ s.nextSchedulerId) ∧
  SentinelTasks s.heap ∧
  SentinelScheds s.schedHeap

/-- Invariant carried through tick traces for the recurring-timer claim:
the watched cell `a` holds an unfreed always-WAIT task with id i, delay D
and the delayable flag set; no other cell carries id i; the invocation
times of i recorded so far are at least D apart; and the task timestamp is
the time of the last recorded invocation, when there is one. -/
def WaitTaskInv (a : Nat) (i D : Int) (s : TaskMgr) : Prop :=
  a < s.heap.length ∧
  (cellAt s a).freed = false ∧
  (cellAt s a).task.func = alwaysWait ∧
  (cellAt s a).task.id = i ∧
  (cellAt s a).task.delay = D ∧
  (cellAt s a).task.delayable = true ∧
  i ≠ -1 ∧
  (∀ b : Nat, b ≠ a → (cellAt s b).task.id ≠ i) ∧
  List.Chain' (fun x y => x + D ≤ y) (invocationTimes i s.log) ∧
  (∀ tl : Int, (invocationTimes i s.log).getLast? = some tl →
    (cellAt s a).task.timestamp = tl)

/-- No task cell of the heap (nor the dummy read of an invalid pointer)
carries the id i. -/
def GoneCells (i : Int) (l : List TaskCell) : Prop :=
  ∀ b : Nat, (l.getD b dummyCell).task.id ≠ i

/-- Invariant carried through whole operation histories after a task with
id i has been destroyed: no cell carries i, and i is at most the id
counter, so every id assigned later is strictly larger than i. -/
def GoneInv (i : Int) (s : TaskMgr) : Prop :=
  i ≤ s.nextTaskId ∧ GoneCells i s.heap

/-! Concrete states used by witnesses and counterexamples. -/

/-- The manager right after taskmgr_init from process start. -/
def sInit : TaskMgr := (taskmgr_init initState).2

/-- A manager whose run loop is active (the state taskmgr_run establishes
before its first tick). -/
def runningState : TaskMgr := { initState with running := true }

/-- Scenario 1 start state: one task with an always-DONE callable and
delay 0, added at time 0 into an otherwise empty manager. -/
def c3_s0 : TaskMgr := (add_task alwaysDone 0 [] 0 sInit).2

/-- One always-WAIT task with delay 5, added at time 0. -/
def waitTask5 : TaskMgr := (add_task alwaysWait 5 [] 0 sInit).2

/-- The manager after calling free_task_by_id on the only task without
removing it from the queue first. -/
def c5_state : TaskMgr := (free_task_by_id 0 waitTask5).2

/-- Two tasks (ids 0 and 1) queued in an otherwise fresh manager. -/
def twoTasks : TaskMgr :=
  (add_task alwaysWait 3 [] 0 (add_task alwaysDone 0 [] 0 sInit).2).2

/-- Scenario 3 start state: 100 independent always-DONE tasks with delay 0
queued at time 0. -/
def mk100 : TaskMgr :=
  (List.range 100).foldl (fun s _ => (add_task alwaysDone 0 [] 0 s).2) sInit

/-- The state after the first scheduler thread has entered its run loop
(running flag set, no tick executed yet) with the 100 tasks still queued. -/
def c6_running_state : TaskMgr := (taskmgr_run 0 (fun _ => 0) mk100).2.1

set_option maxRecDepth 40000

/-! Helper lemmas about list reads and the dispatcher. -/

theorem getD_set_eq_of_lt {α : Type} (l : List α) (i : Nat) (c d : α)
    (h : i < l.length) : (l.set i c).getD i d = c := by
  induction l generalizing i with
  | nil => simp at h
  | cons x xs ih =>
    cases i with
    | zero => rfl
    | succ n => simpa using ih n (by simpa using h)

theorem getD_set_ne_idx {α : Type} (l : List α) (i j : Nat) (c d : α)
    (h : j ≠ i) : (l.set i c).getD j d = l.getD j d := by
  induction l generalizing i j with
  | nil => rfl
  | cons x xs ih =>
    cases i with
    | zero =>
      cases j with
      | zero => exact absurd rfl h
      | succ m => simp [List.set]
    | succ n =>
      cases j with
      | zero => simp [List.set]
      | succ m => simpa [List.set] using ih n m (fun hh => h (by rw [hh]))

theorem getD_append_length {α : Type} (l : List α) (c d : α) :
    (l ++ [c]).getD l.length d = c := by
  induction l with
  | nil => rfl
  | cons x xs ih => simp only [List.cons_append, List.length_cons,
      List.getD_cons_succ]; exact ih

theorem getD_append_lt {α : Type} (l l2 : List α) (j : Nat) (d : α)
    (h : j < l.length) : (l ++ l2).getD j d = l.getD j d := by
  induction l generalizing j with
  | nil => simp at h
  | cons x xs ih =>
    cases j with
    | zero => rfl
    | succ m => simpa using ih m (by simpa using h)

theorem taskmgr_tick_empty (now : Int) (s : TaskMgr) (h : s.taskQueue = []) :
    taskmgr_tick now s = (0, s) := by
  simp [taskmgr_tick, queue_get_empty, h]

theorem runTicks_empty (ts : List Int) (s : TaskMgr) (h : s.taskQueue = []) :
    runTicks ts s = s := by
  induction ts with
  | nil => rfl
  | cons t ts ih => rw [runTicks, taskmgr_tick_empty t s h]; exact ih

/-! Claim theorems. -/

/-- C9: taskmgr_init fails with result 1 when the manager is already
running and taskmgr_shutdown fails with result 1 when it is not running;
both failing calls leave the whole manager state (queues and running flag)
unchanged. -/
theorem c9_lifecycle_guards (s : TaskMgr) :
    (s.running = true → taskmgr_init s = (1, s)) ∧
    (s.running = false → taskmgr_shutdown s = (1, s)) := by
  constructor
  · intro h; simp [taskmgr_init, h]
  · intro h; simp [taskmgr_shutdown, h]

theorem c9_lifecycle_guards_witness :
    taskmgr_init runningState = (1, runningState) ∧
    taskmgr_shutdown initState = (1, initState) :=
  ⟨(c9_lifecycle_guards runningState).1 rfl,
   (c9_lifecycle_guards initState).2 rfl⟩

/-- C7: any call to taskmgr_run while the running flag is already set
returns 1 immediately, executes zero ticks and changes nothing; hence the
thread entry point taskmgr_scheduler_run of a Scheduler created by
add_scheduler while a run loop is active (add_scheduler leaves the running
flag set) performs no scheduling work and exits at once. -/
theorem c7_run_already_running (fuel : Nat) (clock : Nat → Int)
    (s : TaskMgr) (h : s.running = true) :
    taskmgr_run fuel clock s = (1, s, 0) ∧
    taskmgr_scheduler_run fuel clock s = (s, 0) ∧
    (add_scheduler s).2.running = true ∧
    taskmgr_scheduler_run fuel clock (add_scheduler s).2
      = ((add_scheduler s).2, 0) := by
  refine ⟨?_, ?_, ?_, ?_⟩
  · simp [taskmgr_run, h]
  · simp [taskmgr_scheduler_run, taskmgr_run, h]
  · simp [add_scheduler, h]
  · simp [taskmgr_scheduler_run, taskmgr_run, add_scheduler, h]

theorem c7_run_already_running_witness :
    taskmgr_run 20 (fun _ => 0) runningState = (1, runningState, 0) ∧
    taskmgr_scheduler_run 20 (fun _ => 0) runningState = (runningState, 0) ∧
    (add_scheduler runningState).2.running = true ∧
    taskmgr_scheduler_run 20 (fun _ => 0) (add_scheduler runningState).2
      = ((add_scheduler runningState).2, 0) :=
  c7_run_already_running 20 (fun _ => 0) runningState rfl

/-- C10: remove_task_by_id on an id carried by no task in the Ready Queue
returns 1 and leaves the state unchanged, and remove_task on a task handle
not in the Ready Queue returns 1, leaves the state unchanged and in
particular does not free the task. -/
theorem c10_remove_not_found (s : TaskMgr) (i : Int) (a : Nat)
    (hi : ∀ b ∈ s.taskQueue, (cellAt s b).task.id ≠ i)
    (ha : a ∉ s.taskQueue) :
    remove_task_by_id i s = (1, s) ∧ remove_task a s = (1, s) := by
  constructor
  · have hnone : get_task_by_id i s = none := by
      apply List.find?_eq_none.mpr
      intro b hb
      simpa using hi b hb
    simp [remove_task_by_id, hnone]
  · simp [remove_task, queue_remove_object, ha]

theorem c10_remove_not_found_witness :
    remove_task_by_id 5 twoTasks = (1, twoTasks) ∧
    remove_task 9 twoTasks = (1, twoTasks) :=
  c10_remove_not_found twoTasks 5 9 (by decide) (by decide)

/-- C4 (counterexample): the task created by add_task does not own its
argument storage: it stores a pointer to the variadic list living in the
call frame of the add_task invocation itself (frame number 0 here), so the
claim that add_task copies the arguments into task-owned storage fails. -/
theorem c4_args_not_copied_cex :
    ArgsPtr.isOwnedCopy
      (cellAt (add_task alwaysWait 5 [7] 0 sInit).2
        (add_task alwaysWait 5 [7] 0 sInit).1).task.args = false ∧
    (cellAt (add_task alwaysWait 5 [7] 0 sInit).2
      (add_task alwaysWait 5 [7] 0 sInit).1).task.args
      = ArgsPtr.frameRef 0 [7] :=
  ⟨rfl, rfl⟩

/-- C4 (amended): add_task allocates a Task, assigns the next id (one more
than the current counter), sets delayable := true and timestamp := now,
stores the given callable and delay, enqueues the task at the back of the
Ready Queue and does not fail; but the argument set is captured as a
pointer to the variadic list in the transient frame of the add_task call,
not copied into storage owned by the Task. -/
theorem c4_add_task_amended (f : Nat → TaskResult) (delay : Int)
    (blob : List Int) (now : Int) (s : TaskMgr) :
    (add_task f delay blob now s).1 = s.heap.length ∧
    (add_task f delay blob now s).2.nextTaskId = s.nextTaskId + 1 ∧
    (cellAt (add_task f delay blob now s).2
      (add_task f delay blob now s).1).task.id = s.nextTaskId + 1 ∧
    (cellAt (add_task f delay blob now s).2
      (add_task f delay blob now s).1).task.delayable = true ∧
    (cellAt (add_task f delay blob now s).2
      (add_task f delay blob now s).1).task.timestamp = now ∧
    (cellAt (add_task f delay blob now s).2
      (add_task f delay blob now s).1).task.delay = delay ∧
    (cellAt (add_task f delay blob now s).2
      (add_task f delay blob now s).1).task.func = f ∧
    (cellAt (add_task f delay blob now s).2
      (add_task f delay blob now s).1).task.args
      = ArgsPtr.frameRef s.nextFrame blob ∧
    ArgsPtr.isOwnedCopy (cellAt (add_task f delay blob now s).2
      (add_task f delay blob now s).1).task.args = false ∧
    (cellAt (add_task f delay blob now s).2
      (add_task f delay blob now s).1).freed = false ∧
    (add_task f delay blob now s).2.taskQueue
      = s.taskQueue ++ [(add_task f delay blob now s).1] := by
  simp [add_task, cellAt, queue_push_right, getD_append_length,
    ArgsPtr.isOwnedCopy]

/-- C6 (counterexample): with the 100 DONE-on-first-call tasks queued and
the first run loop active, a further run loop (what the thread of any
additional Scheduler executes) returns 1 immediately, performs zero ticks
and drains nothing, refuting that several Schedulers each drain the queue
concurrently. -/
theorem c6_second_scheduler_cex :
    c6_running_state.taskQueue.length = 100 ∧
    c6_running_state.running = true ∧
    taskmgr_run 100 (fun _ => 0) c6_running_state
      = (1, c6_running_state, 0) ∧
    taskmgr_scheduler_run 100 (fun _ => 0) c6_running_state
      = (c6_running_state, 0) :=
  ⟨by decide, by decide, rfl, rfl⟩

/-- C6 (amended): only one run loop ever becomes active; a run loop started
while one is active performs no tick, and the single active loop executes
each of the 100 DONE-on-first-call tasks exactly once in total (the
invocation log is exactly ids 0 through 99, each once, in order) and leaves
the Ready Queue empty. -/
theorem c6_single_loop_drains_amended :
    (taskmgr_run 100 (fun _ => 0) mk100).2.1.taskQueue = [] ∧
    (taskmgr_run 100 (fun _ => 0) mk100).2.1.log.map (fun e => e.tid)
      = (List.range 100).map (fun j => (j : Int)) ∧
    taskmgr_run 42 (fun _ => 0) c6_running_state
      = (1, c6_running_state, 0) :=
  ⟨by decide, by decide, rfl⟩


theorem taskmgr_tick_not_due (now : Int) (s : TaskMgr) (a : Nat)
    (rest : List Nat) (hq : s.taskQueue = a :: rest)
    (hdue : (cellAt s a).task.delayable = true ∧
      now - (cellAt s a).task.timestamp < (cellAt s a).task.delay) :
    taskmgr_tick now s = (0, { s with taskQueue := rest ++ [a] }) := by
  simp only [taskmgr_tick, hq, queue_get_empty, List.isEmpty_cons,
    Bool.false_eq_true, if_false, queue_pop_left, queue_push_right]
  rw [if_pos hdue]

theorem taskmgr_tick_due_cont (now : Int) (s : TaskMgr) (a : Nat)
    (rest : List Nat) (hq : s.taskQueue = a :: rest)
    (hdue : ¬((cellAt s a).task.delayable = true ∧
      now - (cellAt s a).task.timestamp < (cellAt s a).task.delay))
    (hfr : (cellAt s a).task.func (cellAt s a).task.calls = TaskResult.cont) :
    taskmgr_tick now s =
      (0, { s with
            taskQueue := rest ++ [a],
            heap := s.heap.set a
              ({ (cellAt s a) with task :=
                 { (cellAt s a).task with
                     calls := (cellAt s a).task.calls + 1,
                     delayable := false } }),
            log := s.log ++ [{ tid := (cellAt s a).task.id, time := now,
                               result := TaskResult.cont }] }) := by
  simp only [taskmgr_tick, hq, queue_get_empty, List.isEmpty_cons,
    Bool.false_eq_true, if_false, queue_pop_left, queue_push_right]
  rw [if_neg hdue, hfr]
  simp [List.set_set]

theorem taskmgr_tick_due_wait (now : Int) (s : TaskMgr) (a : Nat)
    (rest : List Nat) (hq : s.taskQueue = a :: rest)
    (hdue : ¬((cellAt s a).task.delayable = true ∧
      now - (cellAt s a).task.timestamp < (cellAt s a).task.delay))
    (hfr : (cellAt s a).task.func (cellAt s a).task.calls = TaskResult.wait) :
    taskmgr_tick now s =
      (0, { s with
            taskQueue := rest ++ [a],
            heap := s.heap.set a
              ({ (cellAt s a) with task :=
                 { (cellAt s a).task with
                     calls := (cellAt s a).task.calls + 1,
                     delayable := true, timestamp := now } }),
            log := s.log ++ [{ tid := (cellAt s a).task.id, time := now,
                               result := TaskResult.wait }] }) := by
  simp only [taskmgr_tick, hq, queue_get_empty, List.isEmpty_cons,
    Bool.false_eq_true, if_false, queue_pop_left, queue_push_right]
  rw [if_neg hdue, hfr]
  simp [List.set_set]

theorem taskmgr_tick_due_retire (now : Int) (s : TaskMgr) (a : Nat)
    (rest : List Nat) (hq : s.taskQueue = a :: rest)
    (ha : a < s.heap.length)
    (hdue : ¬((cellAt s a).task.delayable = true ∧
      now - (cellAt s a).task.timestamp < (cellAt s a).task.delay))
    (hfr : (cellAt s a).task.func (cellAt s a).task.calls = TaskResult.done ∨
      (cellAt s a).task.func (cellAt s a).task.calls = TaskResult.unknown) :
    taskmgr_tick now s =
      (0, { s with
            taskQueue := rest,
            heap := s.heap.set a
              ({ task := { (cellAt s a).task with
                   calls := (cellAt s a).task.calls + 1,
                   id := -1, delayable := false, delay := 0,
                   timestamp := 0 },
                 freed := true }),
            log := s.log ++ [{ tid := (cellAt s a).task.id, time := now,
                               result := (cellAt s a).task.func
                                 (cellAt s a).task.calls }] }) := by
  have hc1 : cellAt { s with
      taskQueue := rest,
      heap := s.heap.set a
        ({ (cellAt s a) with task :=
           { (cellAt s a).task with calls := (cellAt s a).task.calls + 1 } }),
      log := s.log ++ [{ tid := (cellAt s a).task.id, time := now,
                         result := (cellAt s a).task.func
                           (cellAt s a).task.calls }] } a
      = ({ (cellAt s a) with task :=
           { (cellAt s a).task with calls := (cellAt s a).task.calls + 1 } }) := by
    simp only [cellAt]
    exact getD_set_eq_of_lt _ _ _ _ ha
  rcases hfr with hfr | hfr <;>
  · simp only [taskmgr_tick, hq, queue_get_empty, List.isEmpty_cons,
      Bool.false_eq_true, if_false, queue_pop_left, queue_push_right]
    rw [if_neg hdue, hfr]
    simp only [free_task, cellAt] at hc1 ⊢
    rw [hc1]
    simp [List.set_set, hfr]



theorem cellAt_heap_set (s : TaskMgr) (q : List Nat) (lg : List Event)
    (a : Nat) (c : TaskCell) (h : a < s.heap.length) :
    cellAt { s with taskQueue := q, heap := s.heap.set a c, log := lg } a
      = c := by
  simp only [cellAt]
  exact getD_set_eq_of_lt _ _ _ _ h

theorem cellAt_heap_set_ne (s : TaskMgr) (q : List Nat) (lg : List Event)
    (a b : Nat) (c : TaskCell) (h : b ≠ a) :
    cellAt { s with taskQueue := q, heap := s.heap.set a c, log := lg } b
      = cellAt s b := by
  simp only [cellAt]
  exact getD_set_ne_idx _ _ _ _ _ h

/-- C1 -/
theorem c1_tick_one_unit (s : TaskMgr) (now : Int) :
    (s.taskQueue = [] → taskmgr_tick now s = (0, s)) ∧
    (∀ a rest, s.taskQueue = a :: rest → a < s.heap.length →
      (((cellAt s a).task.delayable = true ∧
        now - (cellAt s a).task.timestamp < (cellAt s a).task.delay) →
        taskmgr_tick now s = (0, { s with taskQueue := rest ++ [a] })) ∧
      (¬((cellAt s a).task.delayable = true ∧
         now - (cellAt s a).task.timestamp < (cellAt s a).task.delay) →
        (taskmgr_tick now s).1 = 0 ∧
        (taskmgr_tick now s).2.log = s.log ++
          [{ tid := (cellAt s a).task.id, time := now,
             result := (cellAt s a).task.func (cellAt s a).task.calls }] ∧
        ((cellAt s a).task.func (cellAt s a).task.calls = TaskResult.cont →
          (taskmgr_tick now s).2.taskQueue = rest ++ [a] ∧
          (cellAt (taskmgr_tick now s).2 a).task.delayable = false ∧
          (cellAt (taskmgr_tick now s).2 a).task.timestamp
            = (cellAt s a).task.timestamp ∧
          (cellAt (taskmgr_tick now s).2 a).task.id = (cellAt s a).task.id ∧
          (cellAt (taskmgr_tick now s).2 a).freed = (cellAt s a).freed) ∧
        ((cellAt s a).task.func (cellAt s a).task.calls = TaskResult.wait →
          (taskmgr_tick now s).2.taskQueue = rest ++ [a] ∧
          (cellAt (taskmgr_tick now s).2 a).task.delayable = true ∧
          (cellAt (taskmgr_tick now s).2 a).task.timestamp = now ∧
          (cellAt (taskmgr_tick now s).2 a).task.id = (cellAt s a).task.id) ∧
        (((cellAt s a).task.func (cellAt s a).task.calls = TaskResult.done ∨
          (cellAt s a).task.func (cellAt s a).task.calls = TaskResult.unknown) →
          (taskmgr_tick now s).2.taskQueue = rest ∧
          (cellAt (taskmgr_tick now s).2 a).freed = true ∧
          (cellAt (taskmgr_tick now s).2 a).task.id = -1))) := by
  refine ⟨fun h => taskmgr_tick_empty now s h, fun a rest hq ha => ⟨?_, ?_⟩⟩
  · intro hdue
    exact taskmgr_tick_not_due now s a rest hq hdue
  · intro hdue
    refine ⟨?_, ?_, ?_, ?_, ?_⟩
    · cases hfr : (cellAt s a).task.func (cellAt s a).task.calls with
      | cont => rw [taskmgr_tick_due_cont now s a rest hq hdue hfr]
      | wait => rw [taskmgr_tick_due_wait now s a rest hq hdue hfr]
      | done => rw [taskmgr_tick_due_retire now s a rest hq ha hdue (Or.inl hfr)]
      | unknown => rw [taskmgr_tick_due_retire now s a rest hq ha hdue (Or.inr hfr)]
    · cases hfr : (cellAt s a).task.func (cellAt s a).task.calls with
      | cont => rw [taskmgr_tick_due_cont now s a rest hq hdue hfr]
      | wait => rw [taskmgr_tick_due_wait now s a rest hq hdue hfr]
      | done => rw [taskmgr_tick_due_retire now s a rest hq ha hdue (Or.inl hfr)]; simp [hfr]
      | unknown => rw [taskmgr_tick_due_retire now s a rest hq ha hdue (Or.inr hfr)]; simp [hfr]
    · intro hfr
      rw [taskmgr_tick_due_cont now s a rest hq hdue hfr]
      rw [cellAt_heap_set s _ _ a _ ha]
      exact ⟨rfl, rfl, rfl, rfl, rfl⟩
    · intro hfr
      rw [taskmgr_tick_due_wait now s a rest hq hdue hfr]
      rw [cellAt_heap_set s _ _ a _ ha]
      exact ⟨rfl, rfl, rfl, rfl⟩
    · intro hfr
      rw [taskmgr_tick_due_retire now s a rest hq ha hdue hfr]
      rw [cellAt_heap_set s _ _ a _ ha]
      exact ⟨rfl, rfl, rfl⟩

/-- C1 witness -/
theorem c1_tick_one_unit_witness :
    c3_s0.taskQueue = 0 :: [] ∧ (0:Nat) < c3_s0.heap.length ∧
    ¬((cellAt c3_s0 0).task.delayable = true ∧
      (3:Int) - (cellAt c3_s0 0).task.timestamp < (cellAt c3_s0 0).task.delay) ∧
    ((cellAt c3_s0 0).task.func (cellAt c3_s0 0).task.calls = TaskResult.done ∨
     (cellAt c3_s0 0).task.func (cellAt c3_s0 0).task.calls = TaskResult.unknown) ∧
    ((taskmgr_tick 3 c3_s0).2.taskQueue = [] ∧
     (cellAt (taskmgr_tick 3 c3_s0).2 0).freed = true ∧
     (cellAt (taskmgr_tick 3 c3_s0).2 0).task.id = -1) :=
  ⟨rfl, by decide, by decide, Or.inl rfl,
   (((c1_tick_one_unit c3_s0 3).2 0 [] rfl (by decide)).2 (by decide)).2.2.2.2
     (Or.inl rfl)⟩



/-- C3: the always-DONE task with delay 0 added into an empty manager is
invoked exactly once by repeated ticking, then destroyed: the Ready Queue
is empty afterward and, immediately after the destruction, has_task_by_id
is false and get_task_by_id reports not-found. -/
theorem c3_done_task_destroyed (t : Int) (ts : List Int) (ht : 0 ≤ t) :
    (taskmgr_tick t c3_s0).1 = 0 ∧
    invocationCount 0 (runTicks ts (taskmgr_tick t c3_s0).2).log = 1 ∧
    (runTicks ts (taskmgr_tick t c3_s0).2).taskQueue = [] ∧
    has_task_by_id 0 (taskmgr_tick t c3_s0).2 = false ∧
    get_task_by_id 0 (taskmgr_tick t c3_s0).2 = none := by
  have hdue : ¬((cellAt c3_s0 0).task.delayable = true ∧
      t - (cellAt c3_s0 0).task.timestamp < (cellAt c3_s0 0).task.delay) := by
    intro h
    have h2 := h.2
    have he : (cellAt c3_s0 0).task.timestamp = 0 := rfl
    have he2 : (cellAt c3_s0 0).task.delay = 0 := rfl
    rw [he, he2] at h2
    omega
  have htick := taskmgr_tick_due_retire t c3_s0 0 [] rfl (by decide) hdue
    (Or.inl rfl)
  have hre := runTicks_empty ts (taskmgr_tick t c3_s0).2 (by rw [htick])
  rw [hre, htick]
  exact ⟨rfl, rfl, rfl, rfl, rfl⟩

theorem c3_done_task_destroyed_witness :
    (0 : Int) ≤ 0 ∧
    ((taskmgr_tick 0 c3_s0).1 = 0 ∧
     invocationCount 0 (runTicks [1, 2] (taskmgr_tick 0 c3_s0).2).log = 1 ∧
     (runTicks [1, 2] (taskmgr_tick 0 c3_s0).2).taskQueue = [] ∧
     has_task_by_id 0 (taskmgr_tick 0 c3_s0).2 = false ∧
     get_task_by_id 0 (taskmgr_tick 0 c3_s0).2 = none) :=
  ⟨le_refl 0, c3_done_task_destroyed 0 [1, 2] (le_refl 0)⟩



/-- C5 (counterexample): free_task invoked on a task that was not first
removed from the Ready Queue leaves the destroyed task in the queue:
has_task still reports it present, and get_task_by_id / has_task_by_id on
the sentinel id -1 (which destruction assigns) return the destroyed task,
so a lookup can return a destroyed task. -/
theorem c5_freed_task_lookup_cex :
    (cellAt c5_state 0).freed = true ∧
    has_task 0 c5_state = true ∧
    get_task_by_id (-1) c5_state = some 0 ∧
    has_task_by_id (-1) c5_state = true :=
  ⟨rfl, rfl, rfl, rfl⟩

theorem set_out_of_range {α : Type} (l : List α) (i : Nat) (c : α)
    (h : l.length ≤ i) : l.set i c = l := by
  induction l generalizing i with
  | nil => rfl
  | cons x xs ih =>
    cases i with
    | zero => simp at h
    | succ n => simp only [List.set]; rw [ih n (by simpa using h)]

theorem getD_out_of_range {α : Type} (l : List α) (i : Nat) (d : α)
    (h : l.length ≤ i) : l.getD i d = d := by
  induction l generalizing i with
  | nil => cases i <;> rfl
  | cons x xs ih =>
    cases i with
    | zero => simp at h
    | succ n => simp only [List.getD_cons_succ]; exact ih n (by simpa using h)

theorem sentinel_set_generic {α : Type} (fr : α → Bool) (pid : α → Int)
    (d : α) (l : List α) (i : Nat) (c : α)
    (h : ∀ a : Nat, fr (l.getD a d) = true → pid (l.getD a d) = -1)
    (hc : fr c = true → pid c = -1) :
    ∀ a : Nat, fr ((l.set i c).getD a d) = true →
      pid ((l.set i c).getD a d) = -1 := by
  intro a
  by_cases hai : a = i
  · subst hai
    by_cases hlen : a < l.length
    · rw [getD_set_eq_of_lt _ _ _ _ hlen]; exact hc
    · rw [set_out_of_range _ _ _ (by omega)]; exact h a
  · rw [getD_set_ne_idx _ _ _ _ _ hai]; exact h a

theorem sentinel_append_generic {α : Type} (fr : α → Bool) (pid : α → Int)
    (d : α) (l : List α) (c : α)
    (h : ∀ a : Nat, fr (l.getD a d) = true → pid (l.getD a d) = -1)
    (hc : fr c = true → pid c = -1)
    (hd : fr d = true → pid d = -1) :
    ∀ a : Nat, fr ((l ++ [c]).getD a d) = true →
      pid ((l ++ [c]).getD a d) = -1 := by
  intro a
  rcases lt_trichotomy a l.length with hl | he | hg
  · rw [getD_append_lt _ _ _ _ hl]; exact h a
  · rw [he, getD_append_length]; exact hc
  · rw [getD_out_of_range _ _ _ (by simp; omega)]; exact hd

theorem taskmgr_tick_due_retire_any (now : Int) (s : TaskMgr) (a : Nat)
    (rest : List Nat) (hq : s.taskQueue = a :: rest)
    (hdue : ¬((cellAt s a).task.delayable = true ∧
      now - (cellAt s a).task.timestamp < (cellAt s a).task.delay))
    (hfr : (cellAt s a).task.func (cellAt s a).task.calls = TaskResult.done ∨
      (cellAt s a).task.func (cellAt s a).task.calls = TaskResult.unknown) :
    taskmgr_tick now s =
      (0, { s with
            taskQueue := rest,
            heap := s.heap.set a
              ({ task := { (cellAt s a).task with
                   calls := (cellAt s a).task.calls + 1,
                   id := -1, delayable := false, delay := 0,
                   timestamp := 0 },
                 freed := true }),
            log := s.log ++ [{ tid := (cellAt s a).task.id, time := now,
                               result := (cellAt s a).task.func
                                 (cellAt s a).task.calls }] }) := by
  by_cases ha : a < s.heap.length
  · exact taskmgr_tick_due_retire now s a rest hq ha hdue hfr
  · push_neg at ha
    rcases hfr with hfr | hfr <;>
    · simp only [taskmgr_tick, hq, queue_get_empty, List.isEmpty_cons,
        Bool.false_eq_true, if_false, queue_pop_left, queue_push_right]
      rw [if_neg hdue, hfr]
      simp only [free_task, cellAt]
      simp [set_out_of_range _ _ _ ha, hfr]

theorem idInv_initState : IdInv initState :=
  ⟨List.Pairwise.nil, by simp [initState], List.Pairwise.nil,
   by simp [initState], fun _ _ => rfl, fun _ _ => rfl⟩

theorem idInv_free_task (a : Nat) (s : TaskMgr) (h : IdInv s) :
    IdInv (free_task a s).2 := by
  obtain ⟨h1, h2, h3, h4, h5, h6⟩ := h
  exact ⟨h1, h2, h3, h4,
    sentinel_set_generic (fun c : TaskCell => c.freed) (fun c : TaskCell => c.task.id) dummyCell _ _ _ h5 (fun _ => rfl), h6⟩

theorem idInv_free_scheduler (a : Nat) (s : TaskMgr) (h : IdInv s) :
    IdInv (free_scheduler a s).2 := by
  obtain ⟨h1, h2, h3, h4, h5, h6⟩ := h
  exact ⟨h1, h2, h3, h4, h5,
    sentinel_set_generic (fun c : SchedCell => c.freed) (fun c : SchedCell => c.id) dummySchedCell _ _ _ h6 (fun _ => rfl)⟩

theorem idInv_tick (now : Int) (s : TaskMgr) (h : IdInv s) :
    IdInv (taskmgr_tick now s).2 := by
  cases hq : s.taskQueue with
  | nil => rw [taskmgr_tick_empty now s hq]; exact h
  | cons a rest =>
    by_cases hdue : ((cellAt s a).task.delayable = true ∧
        now - (cellAt s a).task.timestamp < (cellAt s a).task.delay)
    · rw [taskmgr_tick_not_due now s a rest hq hdue]; exact h
    · obtain ⟨h1, h2, h3, h4, h5, h6⟩ := h
      cases hfr : (cellAt s a).task.func (cellAt s a).task.calls with
      | cont =>
        rw [taskmgr_tick_due_cont now s a rest hq hdue hfr]
        exact ⟨h1, h2, h3, h4,
          sentinel_set_generic (fun c : TaskCell => c.freed) (fun c : TaskCell => c.task.id) dummyCell _ _ _ h5 (h5 a), h6⟩
      | wait =>
        rw [taskmgr_tick_due_wait now s a rest hq hdue hfr]
        exact ⟨h1, h2, h3, h4,
          sentinel_set_generic (fun c : TaskCell => c.freed) (fun c : TaskCell => c.task.id) dummyCell _ _ _ h5 (h5 a), h6⟩
      | done =>
        rw [taskmgr_tick_due_retire_any now s a rest hq hdue (Or.inl hfr)]
        exact ⟨h1, h2, h3, h4,
          sentinel_set_generic (fun c : TaskCell => c.freed) (fun c : TaskCell => c.task.id) dummyCell _ _ _ h5 (fun _ => rfl), h6⟩
      | unknown =>
        rw [taskmgr_tick_due_retire_any now s a rest hq hdue (Or.inr hfr)]
        exact ⟨h1, h2, h3, h4,
          sentinel_set_generic (fun c : TaskCell => c.freed) (fun c : TaskCell => c.task.id) dummyCell _ _ _ h5 (fun _ => rfl), h6⟩

theorem idInv_run_aux (fuel : Nat) (clock : Nat → Int) (k : Nat)
    (s : TaskMgr) (h : IdInv s) :
    IdInv (taskmgr_run_aux fuel clock k s).2.1 := by
  induction fuel generalizing k s with
  | zero => exact h
  | succ n ih =>
    rw [taskmgr_run_aux]
    by_cases hr : s.running
    · rw [if_pos hr]
      by_cases ht : (taskmgr_tick (clock k) s).1 = 0
      · rw [if_pos ht]
        exact ih (k + 1) _ (idInv_tick (clock k) s h)
      · rw [if_neg ht]
        exact idInv_tick (clock k) s h
    · rw [if_neg hr]; exact h

theorem idInv_run (fuel : Nat) (clock : Nat → Int) (s : TaskMgr)
    (h : IdInv s) : IdInv (taskmgr_run fuel clock s).2.1 := by
  rw [taskmgr_run]
  by_cases hr : s.running
  · rw [if_pos hr]; exact h
  · rw [if_neg hr]
    exact idInv_run_aux fuel clock 0 { s with running := true } h

theorem idInv_add_task (f : Nat → TaskResult) (delay : Int)
    (blob : List Int) (now : Int) (s : TaskMgr) (h : IdInv s) :
    IdInv (add_task f delay blob now s).2 := by
  obtain ⟨h1, h2, h3, h4, h5, h6⟩ := h
  refine ⟨?_, ?_, h3, h4, ?_, h6⟩
  · apply List.pairwise_append.mpr
    refine ⟨h1, List.pairwise_singleton _ _, ?_⟩
    intro x hx y hy
    have hy2 : y = s.nextTaskId + 1 := by simpa using hy
    have := h2 x hx
    omega
  · intro x hx
    rcases List.mem_append.mp hx with hx | hx
    · have := h2 x hx
      simp only [add_task]
      omega
    · have hx2 : x = s.nextTaskId + 1 := by simpa using hx
      simp only [add_task]
      omega
  · exact sentinel_append_generic (fun c : TaskCell => c.freed)
      (fun c : TaskCell => c.task.id) dummyCell _ _ h5 (fun hf => absurd hf Bool.false_ne_true)
      (fun _ => rfl)

theorem idInv_add_scheduler (s : TaskMgr) (h : IdInv s) :
    IdInv (add_scheduler s).2 := by
  obtain ⟨h1, h2, h3, h4, h5, h6⟩ := h
  refine ⟨h1, h2, ?_, ?_, h5, ?_⟩
  · apply List.pairwise_append.mpr
    refine ⟨h3, List.pairwise_singleton _ _, ?_⟩
    intro x hx y hy
    have hy2 : y = s.nextSchedulerId + 1 := by simpa using hy
    have := h4 x hx
    omega
  · intro x hx
    rcases List.mem_append.mp hx with hx | hx
    · have := h4 x hx
      simp only [add_scheduler]
      omega
    · have hx2 : x = s.nextSchedulerId + 1 := by simpa using hx
      simp only [add_scheduler]
      omega
  · exact sentinel_append_generic (fun c : SchedCell => c.freed)
      (fun c : SchedCell => c.id) dummySchedCell _ _ h6 (fun hf => absurd hf Bool.false_ne_true)
      (fun _ => rfl)

theorem idInv_remove_task (a : Nat) (s : TaskMgr) (h : IdInv s) :
    IdInv (remove_task a s).2 := by
  rw [remove_task]
  cases hro : queue_remove_object s.taskQueue a with
  | none => exact h
  | some q => exact idInv_free_task a { s with taskQueue := q } h

theorem idInv_remove_task_by_id (i : Int) (s : TaskMgr) (h : IdInv s) :
    IdInv (remove_task_by_id i s).2 := by
  rw [remove_task_by_id]
  cases hg : get_task_by_id i s with
  | none => exact h
  | some a => exact idInv_remove_task a s h

theorem idInv_free_task_by_id (i : Int) (s : TaskMgr) (h : IdInv s) :
    IdInv (free_task_by_id i s).2 := by
  rw [free_task_by_id]
  cases hg : get_task_by_id i s with
  | none => exact h
  | some a => exact idInv_free_task a s h

theorem idInv_remove_scheduler (a : Nat) (s : TaskMgr) (h : IdInv s) :
    IdInv (remove_scheduler a s).2 := by
  rw [remove_scheduler]
  cases hro : queue_remove_object s.schedulerQueue a with
  | none => exact h
  | some q => exact idInv_free_scheduler a { s with schedulerQueue := q } h

theorem idInv_remove_scheduler_by_id (i : Int) (s : TaskMgr) (h : IdInv s) :
    IdInv (remove_scheduler_by_id i s).2 := by
  rw [remove_scheduler_by_id]
  cases hg : get_scheduler_by_id i s with
  | none => exact h
  | some a => exact idInv_remove_scheduler a s h

theorem idInv_free_scheduler_by_id (i : Int) (s : TaskMgr) (h : IdInv s) :
    IdInv (free_scheduler_by_id i s).2 := by
  rw [free_scheduler_by_id]
  cases hg : get_scheduler_by_id i s with
  | none => exact h
  | some a => exact idInv_free_scheduler a s h

theorem idInv_applyOp (op : Op) (s : TaskMgr) (h : IdInv s) :
    IdInv (applyOp op s) := by
  cases op with
  | opInit =>
    show IdInv (taskmgr_init s).2
    rw [taskmgr_init]
    by_cases hr : s.running
    · rw [if_pos hr]; exact h
    · rw [if_neg hr]; exact h
  | opShutdown =>
    show IdInv (taskmgr_shutdown s).2
    rw [taskmgr_shutdown]
    by_cases hr : s.running = false
    · rw [if_pos hr]; exact h
    · rw [if_neg hr]; exact h
  | opTick now => exact idInv_tick now s h
  | opRun fuel clock => exact idInv_run fuel clock s h
  | opAddTask f delay blob now => exact idInv_add_task f delay blob now s h
  | opAddScheduler => exact idInv_add_scheduler s h
  | opRemoveTask a => exact idInv_remove_task a s h
  | opRemoveTaskById i => exact idInv_remove_task_by_id i s h
  | opFreeTask a => exact idInv_free_task a s h
  | opFreeTaskById i => exact idInv_free_task_by_id i s h
  | opRemoveScheduler a => exact idInv_remove_scheduler a s h
  | opRemoveSchedulerById i => exact idInv_remove_scheduler_by_id i s h
  | opFreeScheduler a => exact idInv_free_scheduler a s h
  | opFreeSchedulerById i => exact idInv_free_scheduler_by_id i s h

theorem idInv_runOps (ops : List Op) (s : TaskMgr) (h : IdInv s) :
    IdInv (runOps ops s) := by
  induction ops generalizing s with
  | nil => exact h
  | cons op ops ih => exact ih _ (idInv_applyOp op s h)

/-- C8: along every history of API operations from process start, the task
ids assigned by add_task are pairwise strictly increasing in creation order
(so no id is ever assigned twice), scheduler ids likewise, and every
destroyed task or scheduler cell carries the sentinel id -1. -/
theorem c8_ids_strictly_increasing (ops : List Op) :
    List.Pairwise (· < ·) (runOps ops initState).createdTaskIds ∧
    List.Pairwise (· < ·) (runOps ops initState).createdSchedulerIds ∧
    SentinelTasks (runOps ops initState).heap ∧
    SentinelScheds (runOps ops initState).schedHeap := by
  have h := idInv_runOps ops initState idInv_initState
  exact ⟨h.1, h.2.2.1, h.2.2.2.2.1, h.2.2.2.2.2⟩



theorem invocationTimes_append_match (i : Int) (lg : List Event) (e : Event)
    (he : e.tid = i) :
    invocationTimes i (lg ++ [e]) = invocationTimes i lg ++ [e.time] := by
  simp [invocationTimes, List.filter_append, he]

theorem invocationTimes_append_nomatch (i : Int) (lg : List Event) (e : Event)
    (he : e.tid ≠ i) :
    invocationTimes i (lg ++ [e]) = invocationTimes i lg := by
  simp [invocationTimes, List.filter_append, he]

theorem waitTaskInv_tick (now : Int) (a : Nat) (i D : Int) (s : TaskMgr)
    (h : WaitTaskInv a i D s) : WaitTaskInv a i D (taskmgr_tick now s).2 := by
  obtain ⟨ha, hfree, hfunc, hid, hD, hdel, hi, huniq, hchain, hlast⟩ := h
  cases hq : s.taskQueue with
  | nil =>
    rw [taskmgr_tick_empty now s hq]
    exact ⟨ha, hfree, hfunc, hid, hD, hdel, hi, huniq, hchain, hlast⟩
  | cons b rest =>
    by_cases hba : b = a
    · subst hba
      by_cases hdue : ((cellAt s b).task.delayable = true ∧
          now - (cellAt s b).task.timestamp < (cellAt s b).task.delay)
      · rw [taskmgr_tick_not_due now s b rest hq hdue]
        exact ⟨ha, hfree, hfunc, hid, hD, hdel, hi, huniq, hchain, hlast⟩
      · have hfr : (cellAt s b).task.func (cellAt s b).task.calls
            = TaskResult.wait := by rw [hfunc]; rfl
        rw [taskmgr_tick_due_wait now s b rest hq hdue hfr]
        have hnlt : ¬(now - (cellAt s b).task.timestamp
            < (cellAt s b).task.delay) := fun hh => hdue ⟨hdel, hh⟩
        have hev : invocationTimes i (s.log ++
            [{ tid := (cellAt s b).task.id, time := now,
               result := TaskResult.wait }])
            = invocationTimes i s.log ++ [now] :=
          invocationTimes_append_match i s.log _ hid
        refine ⟨by simpa using ha, ?_, ?_, ?_, ?_, ?_, hi, ?_, ?_, ?_⟩
        · rw [cellAt_heap_set s _ _ b _ ha]; exact hfree
        · rw [cellAt_heap_set s _ _ b _ ha]; exact hfunc
        · rw [cellAt_heap_set s _ _ b _ ha]; exact hid
        · rw [cellAt_heap_set s _ _ b _ ha]; exact hD
        · rw [cellAt_heap_set s _ _ b _ ha]
        · intro c hc
          rw [cellAt_heap_set_ne s _ _ b c _ hc]
          exact huniq c hc
        · show List.Chain' _ (invocationTimes i (s.log ++ _))
          rw [hev]
          apply List.chain'_append.mpr
          refine ⟨hchain, List.chain'_singleton now, ?_⟩
          intro x hx y hy
          have hyn : now = y := by simpa using hy
          have hts := hlast x (Option.mem_def.mp hx)
          rw [hD] at hnlt
          subst hyn
          omega
        · intro tl htl
          rw [hev, List.getLast?_concat] at htl
          have htn : tl = now := by
            have := htl
            simp at this
            omega
          rw [cellAt_heap_set s _ _ b _ ha, htn]
    · -- a task other than the watched one is popped
      have hane : a ≠ b := fun hh => hba hh.symm
      have hidb : (cellAt s b).task.id ≠ i := huniq b hba
      by_cases hdue : ((cellAt s b).task.delayable = true ∧
          now - (cellAt s b).task.timestamp < (cellAt s b).task.delay)
      · rw [taskmgr_tick_not_due now s b rest hq hdue]
        exact ⟨ha, hfree, hfunc, hid, hD, hdel, hi, huniq, hchain, hlast⟩
      · cases hfr : (cellAt s b).task.func (cellAt s b).task.calls with
        | cont =>
          rw [taskmgr_tick_due_cont now s b rest hq hdue hfr]
          have hev := invocationTimes_append_nomatch i s.log
            { tid := (cellAt s b).task.id, time := now,
              result := TaskResult.cont } hidb
          refine ⟨by simpa using ha, ?_, ?_, ?_, ?_, ?_, hi, ?_, ?_, ?_⟩
          · rw [cellAt_heap_set_ne s _ _ b a _ hane]; exact hfree
          · rw [cellAt_heap_set_ne s _ _ b a _ hane]; exact hfunc
          · rw [cellAt_heap_set_ne s _ _ b a _ hane]; exact hid
          · rw [cellAt_heap_set_ne s _ _ b a _ hane]; exact hD
          · rw [cellAt_heap_set_ne s _ _ b a _ hane]; exact hdel
          · intro c hc
            by_cases hcb : c = b
            · subst hcb
              by_cases hbl : c < s.heap.length
              · rw [cellAt_heap_set s _ _ c _ hbl]
                exact hidb
              · show ((s.heap.set c _).getD c dummyCell).task.id ≠ i
                rw [set_out_of_range _ _ _ (Nat.le_of_not_lt hbl)]
                exact huniq c hc
            · rw [cellAt_heap_set_ne s _ _ b c _ hcb]
              exact huniq c hc
          · show List.Chain' _ (invocationTimes i (s.log ++ _))
            rw [hev]
            exact hchain
          · intro tl htl
            rw [hev] at htl
            rw [cellAt_heap_set_ne s _ _ b a _ hane]
            exact hlast tl htl
        | wait =>
          rw [taskmgr_tick_due_wait now s b rest hq hdue hfr]
          have hev := invocationTimes_append_nomatch i s.log
            { tid := (cellAt s b).task.id, time := now,
              result := TaskResult.wait } hidb
          refine ⟨by simpa using ha, ?_, ?_, ?_, ?_, ?_, hi, ?_, ?_, ?_⟩
          · rw [cellAt_heap_set_ne s _ _ b a _ hane]; exact hfree
          · rw [cellAt_heap_set_ne s _ _ b a _ hane]; exact hfunc
          · rw [cellAt_heap_set_ne s _ _ b a _ hane]; exact hid
          · rw [cellAt_heap_set_ne s _ _ b a _ hane]; exact hD
          · rw [cellAt_heap_set_ne s _ _ b a _ hane]; exact hdel
          · intro c hc
            by_cases hcb : c = b
            · subst hcb
              by_cases hbl : c < s.heap.length
              · rw [cellAt_heap_set s _ _ c _ hbl]
                exact hidb
              · show ((s.heap.set c _).getD c dummyCell).task.id ≠ i
                rw [set_out_of_range _ _ _ (Nat.le_of_not_lt hbl)]
                exact huniq c hc
            · rw [cellAt_heap_set_ne s _ _ b c _ hcb]
              exact huniq c hc
          · show List.Chain' _ (invocationTimes i (s.log ++ _))
            rw [hev]
            exact hchain
          · intro tl htl
            rw [hev] at htl
            rw [cellAt_heap_set_ne s _ _ b a _ hane]
            exact hlast tl htl
        | done =>
          rw [taskmgr_tick_due_retire_any now s b rest hq hdue (Or.inl hfr)]
          have hev := invocationTimes_append_nomatch i s.log
            { tid := (cellAt s b).task.id, time := now,
              result := (cellAt s b).task.func (cellAt s b).task.calls } hidb
          refine ⟨by simpa using ha, ?_, ?_, ?_, ?_, ?_, hi, ?_, ?_, ?_⟩
          · rw [cellAt_heap_set_ne s _ _ b a _ hane]; exact hfree
          · rw [cellAt_heap_set_ne s _ _ b a _ hane]; exact hfunc
          · rw [cellAt_heap_set_ne s _ _ b a _ hane]; exact hid
          · rw [cellAt_heap_set_ne s _ _ b a _ hane]; exact hD
          · rw [cellAt_heap_set_ne s _ _ b a _ hane]; exact hdel
          · intro c hc
            by_cases hcb : c = b
            · subst hcb
              by_cases hbl : c < s.heap.length
              · rw [cellAt_heap_set s _ _ c _ hbl]
                exact fun hh => hi hh.symm
              · show ((s.heap.set c _).getD c dummyCell).task.id ≠ i
                rw [set_out_of_range _ _ _ (Nat.le_of_not_lt hbl)]
                exact huniq c hc
            · rw [cellAt_heap_set_ne s _ _ b c _ hcb]
              exact huniq c hc
          · show List.Chain' _ (invocationTimes i (s.log ++ _))
            rw [hev]
            exact hchain
          · intro tl htl
            rw [hev] at htl
            rw [cellAt_heap_set_ne s _ _ b a _ hane]
            exact hlast tl htl
        | unknown =>
          rw [taskmgr_tick_due_retire_any now s b rest hq hdue (Or.inr hfr)]
          have hev := invocationTimes_append_nomatch i s.log
            { tid := (cellAt s b).task.id, time := now,
              result := (cellAt s b).task.func (cellAt s b).task.calls } hidb
          refine ⟨by simpa using ha, ?_, ?_, ?_, ?_, ?_, hi, ?_, ?_, ?_⟩
          · rw [cellAt_heap_set_ne s _ _ b a _ hane]; exact hfree
          · rw [cellAt_heap_set_ne s _ _ b a _ hane]; exact hfunc
          · rw [cellAt_heap_set_ne s _ _ b a _ hane]; exact hid
          · rw [cellAt_heap_set_ne s _ _ b a _ hane]; exact hD
          · rw [cellAt_heap_set_ne s _ _ b a _ hane]; exact hdel
          · intro c hc
            by_cases hcb : c = b
            · subst hcb
              by_cases hbl : c < s.heap.length
              · rw [cellAt_heap_set s _ _ c _ hbl]
                exact fun hh => hi hh.symm
              · show ((s.heap.set c _).getD c dummyCell).task.id ≠ i
                rw [set_out_of_range _ _ _ (Nat.le_of_not_lt hbl)]
                exact huniq c hc
            · rw [cellAt_heap_set_ne s _ _ b c _ hcb]
              exact huniq c hc
          · show List.Chain' _ (invocationTimes i (s.log ++ _))
            rw [hev]
            exact hchain
          · intro tl htl
            rw [hev] at htl
            rw [cellAt_heap_set_ne s _ _ b a _ hane]
            exact hlast tl htl

theorem waitTaskInv_runTicks (ts : List Int) (a : Nat) (i D : Int)
    (s : TaskMgr) (h : WaitTaskInv a i D s) :
    WaitTaskInv a i D (runTicks ts s) := by
  induction ts generalizing s with
  | nil => exact h
  | cons t ts ih => exact ih _ (waitTaskInv_tick t a i D s h)



/-- C2: for a queued task whose callable returns WAIT on every invocation
(delay D, delayable set, id unique and not the sentinel, no invocation
recorded yet), any sequence of dispatcher ticks produces invocation times
that are consecutively at least D apart: the dispatcher never invokes a
delayable task before its delay has elapsed since its timestamp, and WAIT
resets the timestamp to the invocation time, so the task runs again only
after another D. -/
theorem c2_wait_min_gap (a : Nat) (i D : Int) (s : TaskMgr) (ts : List Int)
    (ha : a < s.heap.length)
    (hfree : (cellAt s a).freed = false)
    (hfunc : (cellAt s a).task.func = alwaysWait)
    (hid : (cellAt s a).task.id = i)
    (hD : (cellAt s a).task.delay = D)
    (hdel : (cellAt s a).task.delayable = true)
    (hi : i ≠ -1)
    (huniq : ∀ b : Nat, b ≠ a → (cellAt s b).task.id ≠ i)
    (hlog : invocationTimes i s.log = []) :
    List.Chain' (fun x y => x + D ≤ y)
      (invocationTimes i (runTicks ts s).log) :=
  (waitTaskInv_runTicks ts a i D s
    ⟨ha, hfree, hfunc, hid, hD, hdel, hi, huniq,
     by rw [hlog]; exact List.chain'_nil,
     fun tl htl => by rw [hlog] at htl; simp at htl⟩).2.2.2.2.2.2.2.2.1

set_option maxHeartbeats 2000000 in
theorem c2_wait_min_gap_witness :
    invocationTimes 0 (runTicks [0, 3, 5, 7, 12] waitTask5).log = [5, 12] ∧
    List.Chain' (fun x y => x + 5 ≤ y)
      (invocationTimes 0 (runTicks [0, 3, 5, 7, 12] waitTask5).log) :=
  ⟨by decide,
   c2_wait_min_gap 0 0 5 waitTask5 [0, 3, 5, 7, 12] (by decide) rfl rfl rfl
     rfl rfl (by decide)
     (fun b hb => by
       cases b with
       | zero => exact absurd rfl hb
       | succ n =>
         have hoor : cellAt waitTask5 (n + 1) = dummyCell := by
           simp only [cellAt]
           refine getD_out_of_range _ _ _ ?_
           have h1 : waitTask5.heap.length = 1 := rfl
           omega
         rw [hoor]
         decide)
     rfl⟩



/-! Lemmas about GoneCells / GoneInv: once no cell carries an id, no API
operation ever produces a cell carrying it again. -/

theorem goneCells_dummy_ne (i : Int) (l : List TaskCell)
    (h : GoneCells i l) : (-1 : Int) ≠ i := by
  have hb := h l.length
  rwa [getD_out_of_range _ _ _ (le_refl _)] at hb

theorem goneCells_set (i : Int) (l : List TaskCell) (p : Nat) (c : TaskCell)
    (h : GoneCells i l) (hc : c.task.id ≠ i) : GoneCells i (l.set p c) := by
  intro b
  by_cases hbp : b = p
  · subst hbp
    by_cases hbl : b < l.length
    · rw [getD_set_eq_of_lt _ _ _ _ hbl]; exact hc
    · rw [set_out_of_range _ _ _ (Nat.le_of_not_lt hbl)]; exact h b
  · rw [getD_set_ne_idx _ _ _ _ _ hbp]; exact h b

theorem goneCells_append (i : Int) (l : List TaskCell) (c : TaskCell)
    (h : GoneCells i l) (hc : c.task.id ≠ i) : GoneCells i (l ++ [c]) := by
  intro b
  rcases lt_trichotomy b l.length with hl | he | hg
  · rw [getD_append_lt _ _ _ _ hl]; exact h b
  · rw [he, getD_append_length]; exact hc
  · rw [getD_out_of_range _ _ _ (by simp; omega)]
    exact fun hh => goneCells_dummy_ne i l h hh

theorem goneCells_establish (i : Int) (s : TaskMgr) (a : Nat) (c : TaskCell)
    (hone : ∀ b : Nat, b ≠ a → (cellAt s b).task.id ≠ i)
    (hc : c.task.id ≠ i) (hi : i ≠ -1) :
    GoneCells i (s.heap.set a c) := by
  intro b
  by_cases hba : b = a
  · subst hba
    by_cases hbl : b < s.heap.length
    · rw [getD_set_eq_of_lt _ _ _ _ hbl]; exact hc
    · rw [set_out_of_range _ _ _ (Nat.le_of_not_lt hbl),
        getD_out_of_range _ _ _ (Nat.le_of_not_lt hbl)]
      exact fun hh => hi hh.symm
  · rw [getD_set_ne_idx _ _ _ _ _ hba]; exact hone b hba

theorem goneInv_get_none (i : Int) (s : TaskMgr) (h : GoneCells i s.heap) :
    get_task_by_id i s = none := by
  apply List.find?_eq_none.mpr
  intro b hb
  intro hpred
  exact h b (by simpa [cellAt] using hpred)

theorem goneInv_free_task (i : Int) (a : Nat) (s : TaskMgr)
    (h : GoneInv i s) : GoneInv i (free_task a s).2 :=
  ⟨h.1, goneCells_set i s.heap a _ h.2
    (fun hh => goneCells_dummy_ne i s.heap h.2 hh)⟩

theorem goneInv_tick (i : Int) (now : Int) (s : TaskMgr) (h : GoneInv i s) :
    GoneInv i (taskmgr_tick now s).2 := by
  cases hq : s.taskQueue with
  | nil => rw [taskmgr_tick_empty now s hq]; exact h
  | cons b rest =>
    by_cases hdue : ((cellAt s b).task.delayable = true ∧
        now - (cellAt s b).task.timestamp < (cellAt s b).task.delay)
    · rw [taskmgr_tick_not_due now s b rest hq hdue]; exact h
    · cases hfr : (cellAt s b).task.func (cellAt s b).task.calls with
      | cont =>
        rw [taskmgr_tick_due_cont now s b rest hq hdue hfr]
        exact ⟨h.1, goneCells_set i s.heap b _ h.2 (h.2 b)⟩
      | wait =>
        rw [taskmgr_tick_due_wait now s b rest hq hdue hfr]
        exact ⟨h.1, goneCells_set i s.heap b _ h.2 (h.2 b)⟩
      | done =>
        rw [taskmgr_tick_due_retire_any now s b rest hq hdue (Or.inl hfr)]
        exact ⟨h.1, goneCells_set i s.heap b _ h.2
          (fun hh => goneCells_dummy_ne i s.heap h.2 hh)⟩
      | unknown =>
        rw [taskmgr_tick_due_retire_any now s b rest hq hdue (Or.inr hfr)]
        exact ⟨h.1, goneCells_set i s.heap b _ h.2
          (fun hh => goneCells_dummy_ne i s.heap h.2 hh)⟩

theorem goneInv_run_aux (i : Int) (fuel : Nat) (clock : Nat → Int) (k : Nat)
    (s : TaskMgr) (h : GoneInv i s) :
    GoneInv i (taskmgr_run_aux fuel clock k s).2.1 := by
  induction fuel generalizing k s with
  | zero => exact h
  | succ n ih =>
    rw [taskmgr_run_aux]
    by_cases hr : s.running
    · rw [if_pos hr]
      by_cases ht : (taskmgr_tick (clock k) s).1 = 0
      · rw [if_pos ht]
        exact ih (k + 1) _ (goneInv_tick i (clock k) s h)
      · rw [if_neg ht]
        exact goneInv_tick i (clock k) s h
    · rw [if_neg hr]; exact h

theorem goneInv_run (i : Int) (fuel : Nat) (clock : Nat → Int) (s : TaskMgr)
    (h : GoneInv i s) : GoneInv i (taskmgr_run fuel clock s).2.1 := by
  rw [taskmgr_run]
  by_cases hr : s.running
  · rw [if_pos hr]; exact h
  · rw [if_neg hr]
    exact goneInv_run_aux i fuel clock 0 { s with running := true } h

theorem goneInv_add_task (i : Int) (f : Nat → TaskResult) (delay : Int)
    (blob : List Int) (now : Int) (s : TaskMgr) (h : GoneInv i s) :
    GoneInv i (add_task f delay blob now s).2 := by
  refine ⟨?_, ?_⟩
  · show i ≤ s.nextTaskId + 1
    have := h.1
    omega
  · refine goneCells_append i s.heap _ h.2 ?_
    show s.nextTaskId + 1 ≠ i
    have := h.1
    omega

theorem goneInv_applyOp (i : Int) (op : Op) (s : TaskMgr) (h : GoneInv i s) :
    GoneInv i (applyOp op s) := by
  cases op with
  | opInit =>
    show GoneInv i (taskmgr_init s).2
    rw [taskmgr_init]
    by_cases hr : s.running
    · rw [if_pos hr]; exact h
    · rw [if_neg hr]; exact h
  | opShutdown =>
    show GoneInv i (taskmgr_shutdown s).2
    rw [taskmgr_shutdown]
    by_cases hr : s.running = false
    · rw [if_pos hr]; exact h
    · rw [if_neg hr]; exact h
  | opTick now => exact goneInv_tick i now s h
  | opRun fuel clock => exact goneInv_run i fuel clock s h
  | opAddTask f delay blob now => exact goneInv_add_task i f delay blob now s h
  | opAddScheduler => exact h
  | opRemoveTask a =>
    show GoneInv i (remove_task a s).2
    rw [remove_task]
    cases hro : queue_remove_object s.taskQueue a with
    | none => exact h
    | some q => exact goneInv_free_task i a { s with taskQueue := q } h
  | opRemoveTaskById j =>
    show GoneInv i (remove_task_by_id j s).2
    rw [remove_task_by_id]
    cases hg : get_task_by_id j s with
    | none => exact h
    | some a =>
      show GoneInv i (remove_task a s).2
      rw [remove_task]
      cases hro : queue_remove_object s.taskQueue a with
      | none => exact h
      | some q => exact goneInv_free_task i a { s with taskQueue := q } h
  | opFreeTask a => exact goneInv_free_task i a s h
  | opFreeTaskById j =>
    show GoneInv i (free_task_by_id j s).2
    rw [free_task_by_id]
    cases hg : get_task_by_id j s with
    | none => exact h
    | some a => exact goneInv_free_task i a s h
  | opRemoveScheduler a =>
    show GoneInv i (remove_scheduler a s).2
    rw [remove_scheduler]
    cases hro : queue_remove_object s.schedulerQueue a with
    | none => exact h
    | some q => exact h
  | opRemoveSchedulerById j =>
    show GoneInv i (remove_scheduler_by_id j s).2
    rw [remove_scheduler_by_id]
    cases hg : get_scheduler_by_id j s with
    | none => exact h
    | some a =>
      show GoneInv i (remove_scheduler a s).2
      rw [remove_scheduler]
      cases hro : queue_remove_object s.schedulerQueue a with
      | none => exact h
      | some q => exact h
  | opFreeScheduler a => exact h
  | opFreeSchedulerById j =>
    show GoneInv i (free_scheduler_by_id j s).2
    rw [free_scheduler_by_id]
    cases hg : get_scheduler_by_id j s with
    | none => exact h
    | some a => exact h

theorem goneInv_runOps (i : Int) (ops : List Op) (s : TaskMgr)
    (h : GoneInv i s) : GoneInv i (runOps ops s) := by
  induction ops generalizing s with
  | nil => exact h
  | cons op ops ih => exact ih _ (goneInv_applyOp i op s h)

theorem goneInv_forever (i : Int) (s : TaskMgr) (h : GoneInv i s)
    (ops : List Op) :
    get_task_by_id i (runOps ops s) = none ∧
    has_task_by_id i (runOps ops s) = false ∧
    (∀ b : Nat, (cellAt (runOps ops s) b).task.id ≠ i) := by
  have h2 := goneInv_runOps i ops s h
  refine ⟨goneInv_get_none i _ h2.2, ?_, fun b => h2.2 b⟩
  rw [has_task_by_id, goneInv_get_none i _ h2.2]
  rfl

theorem goneInv_remove_task (s : TaskMgr) (a : Nat) (i : Int)
    (hia : (cellAt s a).task.id = i)
    (hone : ∀ b c : Nat, (cellAt s b).task.id = i →
      (cellAt s c).task.id = i → b = c)
    (hi : i ≠ -1) (hbound : i ≤ s.nextTaskId)
    (hcode : (remove_task a s).1 = 0) :
    GoneInv i (remove_task a s).2 := by
  rw [remove_task] at hcode ⊢
  cases hro : queue_remove_object s.taskQueue a with
  | none => rw [hro] at hcode; simp at hcode
  | some q =>
    refine ⟨hbound, ?_⟩
    exact goneCells_establish i s a _
      (fun b hba hbi => hba (hone b a hbi hia))
      (fun hh => hi hh.symm) hi


theorem twoTasks_id_only_zero (b : Nat) (hb : b ≠ 0) :
    (cellAt twoTasks b).task.id ≠ 0 := by
  match b with
  | 0 => exact absurd rfl hb
  | 1 => decide
  | n + 2 =>
    have h : cellAt twoTasks (n + 2) = dummyCell := by
      simp only [cellAt]
      refine getD_out_of_range _ _ _ ?_
      have h1 : twoTasks.heap.length = 2 := rfl
      omega
    rw [h]
    decide

theorem c3_s0_id_only_zero (b : Nat) (hb : b ≠ 0) :
    (cellAt c3_s0 b).task.id ≠ 0 := by
  match b with
  | 0 => exact absurd rfl hb
  | n + 1 =>
    have h : cellAt c3_s0 (n + 1) = dummyCell := by
      simp only [cellAt]
      refine getD_out_of_range _ _ _ ?_
      have h1 : c3_s0.heap.length = 1 := rfl
      omega
    rw [h]
    decide

/-- C5 (amended): a task destroyed together with its removal - through a
succeeding remove_task_by_id or remove_task, or retired by the dispatcher
when its callable returns DONE (or an unrecognized value) - never again
satisfies a lookup: after every subsequent sequence of API operations,
get_task_by_id and has_task_by_id on its old id fail and no task cell ever
carries that id again, so the id is never reassigned; but free_task on a
task not first removed from the Ready Queue leaves the destroyed task in
the queue, where has_task still reports it and lookups for the sentinel
id -1 return it, as the counterexample shows. -/
theorem c5_removed_task_amended :
    (∀ (s : TaskMgr) (i : Int),
      (∀ b c : Nat, (cellAt s b).task.id = i →
        (cellAt s c).task.id = i → b = c) →
      i ≠ -1 → i ≤ s.nextTaskId →
      (remove_task_by_id i s).1 = 0 →
      ∀ ops : List Op,
        get_task_by_id i (runOps ops (remove_task_by_id i s).2) = none ∧
        has_task_by_id i (runOps ops (remove_task_by_id i s).2) = false ∧
        (∀ b : Nat,
          (cellAt (runOps ops (remove_task_by_id i s).2) b).task.id ≠ i)) ∧
    (∀ (s : TaskMgr) (a : Nat) (i : Int),
      (cellAt s a).task.id = i →
      (∀ b c : Nat, (cellAt s b).task.id = i →
        (cellAt s c).task.id = i → b = c) →
      i ≠ -1 → i ≤ s.nextTaskId →
      (remove_task a s).1 = 0 →
      ∀ ops : List Op,
        get_task_by_id i (runOps ops (remove_task a s).2) = none ∧
        has_task_by_id i (runOps ops (remove_task a s).2) = false ∧
        (∀ b : Nat,
          (cellAt (runOps ops (remove_task a s).2) b).task.id ≠ i)) ∧
    (∀ (now : Int) (s : TaskMgr) (a : Nat) (rest : List Nat) (i : Int),
      s.taskQueue = a :: rest →
      (cellAt s a).task.id = i →
      (∀ b c : Nat, (cellAt s b).task.id = i →
        (cellAt s c).task.id = i → b = c) →
      i ≠ -1 → i ≤ s.nextTaskId →
      ¬((cellAt s a).task.delayable = true ∧
        now - (cellAt s a).task.timestamp < (cellAt s a).task.delay) →
      ((cellAt s a).task.func (cellAt s a).task.calls = TaskResult.done ∨
       (cellAt s a).task.func (cellAt s a).task.calls
         = TaskResult.unknown) →
      ∀ ops : List Op,
        get_task_by_id i (runOps ops (taskmgr_tick now s).2) = none ∧
        has_task_by_id i (runOps ops (taskmgr_tick now s).2) = false ∧
        (∀ b : Nat,
          (cellAt (runOps ops (taskmgr_tick now s).2) b).task.id ≠ i)) := by
  refine ⟨?_, ?_, ?_⟩
  · intro s i hone hi hbound hcode ops
    cases hg : get_task_by_id i s with
    | none =>
      rw [remove_task_by_id, hg] at hcode
      simp at hcode
    | some a =>
      have hg2 := hg
      simp only [get_task_by_id] at hg2
      have hia : (cellAt s a).task.id = i := by
        simpa using List.find?_some hg2
      have hrm : remove_task_by_id i s = remove_task a s := by
        rw [remove_task_by_id, hg]
      rw [hrm] at hcode ⊢
      exact goneInv_forever i _
        (goneInv_remove_task s a i hia hone hi hbound hcode) ops
  · intro s a i hia hone hi hbound hcode ops
    exact goneInv_forever i _
      (goneInv_remove_task s a i hia hone hi hbound hcode) ops
  · intro now s a rest i hq hia hone hi hbound hdue hfr ops
    have hgone : GoneInv i (taskmgr_tick now s).2 := by
      rw [taskmgr_tick_due_retire_any now s a rest hq hdue hfr]
      refine ⟨hbound, ?_⟩
      exact goneCells_establish i s a _
        (fun b hba hbi => hba (hone b a hbi hia))
        (fun hh => hi hh.symm) hi
    exact goneInv_forever i _ hgone ops

theorem c5_removed_task_amended_witness :
    ((remove_task_by_id 0 twoTasks).1 = 0 ∧
     (get_task_by_id 0 (runOps [Op.opAddTask alwaysDone 0 [] 0, Op.opTick 1]
        (remove_task_by_id 0 twoTasks).2) = none ∧
      has_task_by_id 0 (runOps [Op.opAddTask alwaysDone 0 [] 0, Op.opTick 1]
        (remove_task_by_id 0 twoTasks).2) = false ∧
      (∀ b : Nat,
        (cellAt (runOps [Op.opAddTask alwaysDone 0 [] 0, Op.opTick 1]
          (remove_task_by_id 0 twoTasks).2) b).task.id ≠ 0))) ∧
    (get_task_by_id 0 (runOps [Op.opAddTask alwaysWait 1 [] 2]
        (taskmgr_tick 2 c3_s0).2) = none ∧
     has_task_by_id 0 (runOps [Op.opAddTask alwaysWait 1 [] 2]
        (taskmgr_tick 2 c3_s0).2) = false ∧
     (∀ b : Nat,
       (cellAt (runOps [Op.opAddTask alwaysWait 1 [] 2]
         (taskmgr_tick 2 c3_s0).2) b).task.id ≠ 0)) :=
  ⟨⟨by decide,
    c5_removed_task_amended.1 twoTasks 0
      (fun b c hb hc => by
        by_cases hb0 : b = 0
        · by_cases hc0 : c = 0
          · rw [hb0, hc0]
          · exact absurd hc (twoTasks_id_only_zero c hc0)
        · exact absurd hb (twoTasks_id_only_zero b hb0))
      (by decide) (by decide) (by decide)
      [Op.opAddTask alwaysDone 0 [] 0, Op.opTick 1]⟩,
   c5_removed_task_amended.2.2 2 c3_s0 0 [] 0 rfl rfl
     (fun b c hb hc => by
       by_cases hb0 : b = 0
       · by_cases hc0 : c = 0
         · rw [hb0, hc0]
         · exact absurd hc (c3_s0_id_only_zero c hc0)
       · exact absurd hb (c3_s0_id_only_zero b hb0))
     (by decide) (by decide) (by decide) (Or.inl rfl)
     [Op.opAddTask alwaysWait 1 [] 2]⟩


end Vulkan
